import Mathlib

/-!
Shallow embedding of the `@borderlesslabs/json-rpc` package (src/index.ts):
a transport-agnostic JSON-RPC 2.0 server and client.

JavaScript runtime values are modelled by `JsValue`, with `undefined` as a
first-class value so that absent object properties read back as `undefined`,
exactly as in JavaScript.  Numbers are rationals: every JSON number is finite,
and the only numeric test the source performs is integrality (`x % 1 === 0`).
Objects are finite maps represented as association lists (first binding wins;
all objects built by the code have distinct keys).

Thrown JavaScript exceptions are modelled with `Except JsValue`: the
`.error` constructor carries the thrown value.  `async`/`await` sequencing
is collapsed to direct evaluation, which is faithful because the source
awaits every promise it creates and `Promise.all` preserves positional order.
-/

inductive JsValue : Type where
  | undefined : JsValue
  | null : JsValue
  | bool : Bool → JsValue
  | num : Rat → JsValue
  | str : String → JsValue
  | arr : List JsValue → JsValue
  | obj : List (String × JsValue) → JsValue
  deriving Repr

namespace JsValue

/-- Structural decidable equality for `JsValue` (written by hand because the
type nests under `List` and `Prod`). -/
def beq : JsValue → JsValue → Bool
  | .undefined, .undefined => true
  | .null, .null => true
  | .bool a, .bool b => a == b
  | .num a, .num b => a == b
  | .str a, .str b => a == b
  | .arr a, .arr b => beqList a b
  | .obj a, .obj b => beqFields a b
  | _, _ => false
where
  beqList : List JsValue → List JsValue → Bool
    | [], [] => true
    | x :: xs, y :: ys => beq x y && beqList xs ys
    | _, _ => false
  beqFields : List (String × JsValue) → List (String × JsValue) → Bool
    | [], [] => true
    | (k, v) :: xs, (l, w) :: ys => k == l && beq v w && beqFields xs ys
    | _, _ => false

instance : BEq JsValue := ⟨beq⟩

mutual

theorem beqRefl : (v : JsValue) → beq v v = true
  | .undefined => rfl
  | .null => rfl
  | .bool b => by simp [beq]
  | .num n => by simp [beq]
  | .str s => by simp [beq]
  | .arr xs => by simp [beq, beqListRefl xs]
  | .obj fs => by simp [beq, beqFieldsRefl fs]

theorem beqListRefl : (xs : List JsValue) → beq.beqList xs xs = true
  | [] => rfl
  | x :: xs => by simp [beq.beqList, beqRefl x, beqListRefl xs]

theorem beqFieldsRefl : (fs : List (String × JsValue)) → beq.beqFields fs fs = true
  | [] => rfl
  | (k, v) :: fs => by simp [beq.beqFields, beqRefl v, beqFieldsRefl fs]

end

mutual

theorem beqEq : (v w : JsValue) → beq v w = true → v = w
  | .undefined, .undefined, _ => rfl
  | .null, .null, _ => rfl
  | .bool a, .bool b, h => by simpa [beq] using h
  | .num a, .num b, h => by simpa [beq] using h
  | .str a, .str b, h => by simpa [beq] using h
  | .arr a, .arr b, h => congrArg JsValue.arr (beqListEq a b (by simpa [beq] using h))
  | .obj a, .obj b, h => congrArg JsValue.obj (beqFieldsEq a b (by simpa [beq] using h))

theorem beqListEq : (xs ys : List JsValue) → beq.beqList xs ys = true → xs = ys
  | [], [], _ => rfl
  | x :: xs, y :: ys, h => by
    simp only [beq.beqList, Bool.and_eq_true] at h
    exact congrArg₂ List.cons (beqEq x y h.1) (beqListEq xs ys h.2)

theorem beqFieldsEq :
    (fs gs : List (String × JsValue)) → beq.beqFields fs gs = true → fs = gs
  | [], [], _ => rfl
  | (k, v) :: fs, (l, w) :: gs, h => by
    simp only [beq.beqFields, Bool.and_eq_true] at h
    obtain ⟨⟨h1, h2⟩, h3⟩ := h
    exact congrArg₂ List.cons
      (Prod.ext (beq_iff_eq.mp h1) (beqEq v w h2)) (beqFieldsEq fs gs h3)

end

instance : DecidableEq JsValue := fun v w =>
  if h : beq v w = true then .isTrue (beqEq v w h)
  else .isFalse (fun hc => h (hc ▸ beqRefl v))

instance : LawfulBEq JsValue where
  eq_of_beq := beqEq _ _
  rfl := beqRefl _

/-- JavaScript `typeof` on the modelled value kinds (`typeof null` and
`typeof` of an array are both `"object"`). -/
def typeof : JsValue → String
  | .undefined => "undefined"
  | .null => "object"
  | .bool _ => "boolean"
  | .num _ => "number"
  | .str _ => "string"
  | .arr _ => "object"
  | .obj _ => "object"

/-- JavaScript `Array.isArray`. -/
def isArray : JsValue → Bool
  | .arr _ => true
  | _ => false

/-- Property read `v[key]` on a receiver known not to be null/undefined:
on an object, the bound value (or `undefined` when the key is absent); on
booleans, numbers, strings and arrays, `undefined`, just as in JavaScript
(boxed primitives and plain arrays have none of the keys the engine reads).
A read on a null/undefined receiver throws a TypeError in JavaScript and
must go through `getT` instead; `get` is only applied where the source has
already checked the receiver (object payloads, bodies) or where the
receiver is the same value an earlier `getT` succeeded on. -/
def get : JsValue → String → JsValue
  | .obj fields, key => ((fields.find? fun p => p.1 == key).map Prod.snd).getD .undefined
  | _, _ => .undefined

/-- Optional chaining `v?.[key]`: `undefined` on a nullish receiver. -/
def getOpt (v : JsValue) (key : String) : JsValue :=
  if v == .null || v == .undefined then .undefined else v.get key

/-- JavaScript truthiness of the modelled values (`NaN` cannot occur: all
numbers come from JSON and are finite rationals). -/
def truthy : JsValue → Bool
  | .undefined => false
  | .null => false
  | .bool b => b
  | .num n => n != 0
  | .str s => s != ""
  | .arr _ => true
  | .obj _ => true

/-- Nullish coalescing `v ?? d`. -/
def nullishOr (v d : JsValue) : JsValue :=
  match v with
  | .undefined => d
  | .null => d
  | _ => v

/-- Logical or `v || d` (left operand when truthy, else right operand). -/
def orElse (v d : JsValue) : JsValue :=
  if v.truthy then v else d

/-- Array index read `xs[i]` (out of range gives `undefined`). -/
def index : JsValue → Nat → JsValue
  | .arr xs, i => xs.getD i .undefined
  | _, _ => .undefined

end JsValue

/-- A TypeError thrown by the runtime (property read on a null/undefined
receiver).  In the modelled paths these exceptions only propagate — the
engine never reads their fields — so one marker value suffices; its
engine-specific `message` string is deliberately not modelled. -/
def TYPE_ERROR : JsValue := .obj [("name", .str "TypeError")]

/-- Property read `v[key]` on an unchecked receiver: JavaScript throws a
TypeError when the receiver is null or undefined, and otherwise reads as
`get` does.  Used exactly where the source dereferences unchecked values:
the catch clause's `err.code` / `err.message` / `err.data` and the batch
reply tabulation's `data.id`. -/
def JsValue.getT (v : JsValue) (key : String) : Except JsValue JsValue :=
  match v with
  | .null => .error TYPE_ERROR
  | .undefined => .error TYPE_ERROR
  | v => .ok (v.get key)

deriving instance DecidableEq for Except

/-! ### The envelope codec (src/index.ts lines 54-135) -/

/-- A JSON-RPC error object `{ code, message, data? }`.  The source stores
whatever values it computed into these fields; `data := .undefined` plays the
role of an absent `data` field. -/
structure RpcErrorObj where
  code : Rat
  message : JsValue
  data : JsValue
  deriving Repr, DecidableEq

/-- A JSON-RPC response envelope: `{ jsonrpc: "2.0", id, result }` or
`{ jsonrpc: "2.0", id, error }` (the constant `jsonrpc` field is implicit in
the constructor). -/
inductive RpcResponse where
  | success (result : JsValue) (id : JsValue)
  | failure (error : RpcErrorObj) (id : JsValue)
  deriving Repr, DecidableEq

def INVALID_REQUEST : RpcErrorObj :=
  { code := -32600, message := .str "Invalid request", data := .undefined }

def METHOD_NOT_FOUND : RpcErrorObj :=
  { code := -32601, message := .str "Method not found", data := .undefined }

def PARSE_ERROR : RpcErrorObj :=
  { code := -32700, message := .str "Parse error", data := .undefined }

/-- Check if a JSON-RPC id is valid (source `isJsonRpcId`): `null`,
`undefined`, any string, or an integer-valued number.  The JavaScript test
`input % 1 === 0` holds for a finite number exactly when it is integral,
i.e. when its rational value has denominator 1. -/
def isJsonRpcId : JsValue → Bool
  | .null => true
  | .undefined => true
  | .str _ => true
  | .num n => n.den == 1
  | _ => false

namespace JsonRpc

/-- Wrap a result in a JSON-RPC success response (source `success`):
`undefined` ids (notifications) produce no envelope. -/
def success (result : JsValue) (id : JsValue) : Option RpcResponse :=
  if id == .undefined then none else some (.success result id)

/-- Wrap an error in a JSON-RPC failure response (source `failure`):
`undefined` ids (notifications) produce no envelope.  (Namespaced because
the bare name `failure` collides with `Alternative.failure`.) -/
def failure (error : RpcErrorObj) (id : JsValue) : Option RpcResponse :=
  if id == .undefined then none else some (.failure error id)

end JsonRpc

/-! ### Method tables and resolvers (src/index.ts lines 6-39) -/

/-- A `Left` produced by an io-ts decode: the raw `Errors` value (as the
client passes it on in `RpcError.data`) together with its
`PathReporter.report(...).join("; ")` rendering (as both sides use for the
error message). -/
structure DecodeFailure where
  errors : JsValue
  report : String
  deriving Repr, DecidableEq

/-- One io-ts codec as the engine uses it: the declared key list of the
shape (`props`, read only for the array-params shim), `decode` and `encode`.
`decode` returns an `Either`: `.error` of the outer `Except` models the
codec itself throwing, `.ok (.error f)` a `Left` of validation errors, and
`.ok (.ok v)` a `Right`.  `encode` likewise may throw. -/
structure Codec where
  props : List String
  decode : JsValue → Except JsValue (Except DecodeFailure JsValue)
  encode : JsValue → Except JsValue JsValue

/-- A method entry `{ request, response }`. -/
structure Method where
  request : Codec
  response : Codec

/-- The method table `Record<string, Method>`, an immutable string-keyed
map. -/
def Methods : Type := List (String × Method)

/-- Own-key lookup `methods[method]` restricted to the table's own entries:
`some` exactly for the declared method names. -/
def lookupMethod (methods : Methods) (name : String) : Option Method :=
  (methods.find? fun p => p.1 == name).map Prod.snd

/-- The property names every plain object literal inherits from
`Object.prototype`, which the JavaScript `in` operator also reports as
present: `name in methods` is true for these even when the table declares
no such method. -/
def objectPrototypeKeys : List String :=
  ["constructor", "hasOwnProperty", "isPrototypeOf", "propertyIsEnumerable",
   "toLocaleString", "toString", "valueOf", "__proto__", "__defineGetter__",
   "__defineSetter__", "__lookupGetter__", "__lookupSetter__"]

/-- The `method in methods` test (source line 162): true for the table's
own keys and for names inherited from `Object.prototype`. -/
def methodsHas (methods : Methods) (name : String) : Bool :=
  (lookupMethod methods name).isSome || objectPrototypeKeys.contains name

/-- Metadata for JSON-RPC requests, passed to every resolver. -/
structure Metadata where
  id : JsValue
  isNotification : Bool
  deriving Repr, DecidableEq

/-- The resolver table: for each method name a handler
`(decoded request, context, metadata)`; `.error` models a thrown value. -/
def Resolvers (C : Type) : Type :=
  String → JsValue → C → Metadata → Except JsValue JsValue

/-- Server options `{ decode?, encode? }`; `none` models an absent field. -/
structure ServerOptions where
  decode : Option Bool := none
  encode : Option Bool := none
  deriving Repr, DecidableEq

/-! ### The request processor (src/index.ts lines 140-210) -/

/-- The `params` normalization step (source lines 169-178): an array is
mapped positionally onto the declared `props` keys in declaration order
(missing positions read as `undefined`); `undefined` and other
`typeof === "object"` values (including `null`, since `typeof null` is
`"object"`) pass through `params ?? {}`; any other primitive is rejected
(`none` leads to an Invalid Request failure). -/
def normalizeParams (props : List String) (params : JsValue) : Option JsValue :=
  if params.isArray then
    some (.obj (props.mapIdx fun index key => (key, params.index index)))
  else if params == .undefined || params.typeof == "object" then
    some (params.nullishOr (.obj []))
  else
    none

/-- The `catch (err)` clause of `processRequest` (source lines 200-209).
The thrown value is unchecked, so reading `err.code` on a thrown
null/undefined itself throws a TypeError, which escapes `processRequest` as
a rejection (`.error`).  Otherwise: `err.code` is kept when it is a number,
else `-32603`; `err.message` is kept when truthy, else `"Internal error"`;
`err.data` is passed through. -/
def caughtToError (err : JsValue) : Except JsValue RpcErrorObj :=
  match err.getT "code" with
  | .error e => .error e
  | .ok code =>
    match err.getT "message" with
    | .error e => .error e
    | .ok message =>
      match err.getT "data" with
      | .error e => .error e
      | .ok data =>
        .ok { code := match code with
                | .num n => n
                | _ => (-32603 : Rat)
            , message := message.orElse (.str "Internal error")
            , data := data }

/-- The tail of `processRequest` after params normalization (source lines
180-209): run the request decode result, invoke the resolver, suppress the
response for notifications, and encode the result.  The `try` block spans
the resolver call and the response encode, so a value thrown by either
reaches the catch clause, which builds a failure envelope — unless the
thrown value is null/undefined, in which case the catch clause itself
throws a TypeError that escapes.  A `Left` from decode becomes an Invalid
Params failure; a value thrown by decode itself propagates (it is outside
the `try`). -/
def dispatchDecoded {C : Type} (resolvers : Resolvers C) (schema : Method)
    (name : String) (context : C) (options : ServerOptions) (id : JsValue)
    (isNotification : Bool) (input : Except JsValue (Except DecodeFailure JsValue)) :
    Except JsValue (Option RpcResponse) :=
  match input with
  | .error e => .error e
  | .ok (.error f) =>
    .ok (JsonRpc.failure { code := -32602, message := .str f.report, data := .undefined } id)
  | .ok (.ok decoded) =>
    match resolvers name decoded context { id := id, isNotification := isNotification } with
    | .error err =>
      match caughtToError err with
      | .error e => .error e
      | .ok errObj => .ok (JsonRpc.failure errObj id)
    | .ok ret =>
      if isNotification then .ok none
      else
        match (if options.encode == some false then .ok ret else schema.response.encode ret) with
        | .error err =>
          match caughtToError err with
          | .error e => .error e
          | .ok errObj => .ok (JsonRpc.failure errObj id)
        | .ok encoded => .ok (JsonRpc.success encoded id)

/-- Validate one RPC message and produce a success, a failure, or nothing
(source `processRequest`, lines 140-210).  The result's `.error` constructor
models an exception escaping `processRequest`. -/
def processRequest {C : Type} (methods : Methods) (resolvers : Resolvers C)
    (message : JsValue) (context : C) (options : ServerOptions) :
    Except JsValue (Option RpcResponse) :=
  if message == .null || message.typeof != "object" then
    .ok (JsonRpc.failure INVALID_REQUEST .null)
  else
    let jsonrpc := message.get "jsonrpc"
    let method := message.get "method"
    let id := message.get "id"
    let params := message.get "params"
    let isNotification := id == .undefined
    if !(isJsonRpcId id) then
      .ok (JsonRpc.failure INVALID_REQUEST .null)
    else
      match method with
      | .str name =>
        if jsonrpc != .str "2.0" then
          .ok (JsonRpc.failure INVALID_REQUEST (id.nullishOr .null))
        else if !(methodsHas methods name) then
          .ok (JsonRpc.failure METHOD_NOT_FOUND id)
        else
          match lookupMethod methods name with
          | some schema =>
            match normalizeParams schema.request.props params with
            | none => .ok (JsonRpc.failure INVALID_REQUEST id)
            | some data =>
              dispatchDecoded resolvers schema name context options id isNotification
                (if options.decode == some false then .ok (.ok data)
                 else schema.request.decode data)
          | none =>
            -- `name in methods` holds only through Object.prototype:
            -- `methods[name]` is an inherited built-in, and the destructured
            -- `request` and `response` are both `undefined`.  Array params
            -- then throw a TypeError at `Object.keys(request.props)`; other
            -- primitives are still rejected before `request` is touched;
            -- object/absent params reach `request.decode(data)`, which (in
            -- the default decoding configuration) throws a TypeError on the
            -- undefined codec.  With decoding explicitly disabled the
            -- engine would instead call the inherited `resolvers[name]`
            -- built-in, whose outcome is name-specific (`toString` returns
            -- a string, `__proto__` is not callable); no theorem below
            -- depends on that configuration, which this model folds into
            -- the same thrown TypeError.
            if params.isArray then
              .error TYPE_ERROR
            else if params == .undefined || params.typeof == "object" then
              .error TYPE_ERROR
            else
              .ok (JsonRpc.failure INVALID_REQUEST id)
      | _ => .ok (JsonRpc.failure INVALID_REQUEST (id.nullishOr .null))

/-! ### The server dispatcher (src/index.ts lines 225-251) -/

/-- Sequencing of independently-evaluated fallible computations, in
positional order: `Promise.all` over an array of already-started promises
(used by the server's batch branch, where the assembled order always
mirrors submission order), and likewise a synchronous `Array.map` whose
callback may throw (used by the client's batch resolution). -/
def collectResults {ε α : Type} : List (Except ε α) → Except ε (List α)
  | [] => .ok []
  | .error e :: _ => .error e
  | .ok a :: rest => (collectResults rest).map fun as => a :: as

/-- What `rpcServer` resolves to: a single envelope (or nothing, for a
notification) or a batch of envelopes. -/
inductive ServerResult where
  | single (response : Option RpcResponse)
  | batch (responses : List RpcResponse)
  deriving Repr, DecidableEq

/-- The request handler returned by `createServer` (source lines 230-250).
An array payload must be non-empty; its elements are processed positionally
(`Promise.all` preserves order) and the `undefined` results of notifications
are filtered out.  Anything else is processed as a single request. -/
def rpcServer {C : Type} (methods : Methods) (resolvers : Resolvers C)
    (options : ServerOptions) (payload : JsValue) (context : C) :
    Except JsValue ServerResult :=
  match payload with
  | .arr elements =>
    if elements.length = 0 then
      .ok (.single (JsonRpc.failure INVALID_REQUEST .null))
    else
      (collectResults (elements.map fun x =>
          processRequest methods resolvers x context options)).map
        fun results => .batch (results.filterMap id)
  | other => (processRequest methods resolvers other context options).map .single

/-! ### The client (src/index.ts lines 275-390) -/

/-- Client options `{ encode?, decode? }`. -/
structure ClientOptions where
  encode : Option Bool := none
  decode : Option Bool := none
  deriving Repr, DecidableEq

/-- The `RpcError` class: a client-side error value `{ message, code, data }`. -/
structure RpcError where
  message : String
  code : Rat
  data : JsValue
  deriving Repr, DecidableEq

mutual

/-- JavaScript `String()` coercion.  Faithful on `undefined`, `null`,
booleans, strings and integer-valued numbers (the only values the client
ever feeds it: error messages are strings or absent); fractional numbers
are rendered as `num/den` rather than in decimal form. -/
def jsToString : JsValue → String
  | .undefined => "undefined"
  | .null => "null"
  | .bool b => if b then "true" else "false"
  | .num n => if n.den == 1 then toString n.num else toString n
  | .str s => s
  | .arr xs => String.intercalate "," (jsToStringElems xs)
  | .obj _ => "[object Object]"

/-- Elements of an array under `String()`: nullish entries render empty. -/
def jsToStringElems : List JsValue → List String
  | [] => []
  | x :: xs =>
    (if x == .null || x == .undefined then "" else jsToString x) :: jsToStringElems xs

end

/-- JavaScript `Number()` coercion, `none` modelling `NaN`.  Faithful on
numbers, `undefined`, `null`, booleans, the empty array and non-numeric
strings (the claims only exercise numbers and `undefined`); numeric strings
are modelled for integer literals. -/
def jsToNumber : JsValue → Option Rat
  | .undefined => none
  | .null => some 0
  | .bool b => some (if b then 1 else 0)
  | .num n => some n
  | .str s => if s.trim = "" then some 0 else (s.trim.toInt?).map fun i => (i : Rat)
  | .arr [] => some 0
  | .arr (_ :: _) => none
  | .obj _ => none

/-- What the response-processing closure (`process`) yields: a raw
`RpcError` value or the decoded result. -/
inductive ProcessOut where
  | rpcError (e : RpcError)
  | value (v : JsValue)
  deriving Repr, DecidableEq

/-- The `process` closure built by `prepare` (source lines 302-341), as a
function of its captured response codec, client options and `async` flag.
`Number(error?.code) || 0` is `0` exactly when the coercion gives `NaN` or
`0`, i.e. `(jsToNumber _).getD 0`.  A throw from the response decode
propagates (`.error`). -/
def processBody (response : Codec) (options : ClientOptions) (async : Bool)
    (body : JsValue) : Except JsValue ProcessOut :=
  if body == .undefined then
    if async then .ok (.value .undefined)
    else .ok (.rpcError { message := "Invalid response", code := -1, data := .undefined })
  else if body == .null || body.typeof != "object" || body.isArray then
    .ok (.rpcError { message := "Invalid response", code := -1, data := .undefined })
  else
    let result := body.get "result"
    let error := body.get "error"
    if result == .undefined && error == .undefined then
      .ok (.rpcError { message := "Invalid response", code := -1, data := .undefined })
    else if error != .undefined then
      .ok (.rpcError
        { message := jsToString ((error.getOpt "message").orElse (.str "Error"))
        , code := (jsToNumber (error.getOpt "code")).getD 0
        , data := error.getOpt "data" })
    else
      match (if options.decode == some false then .ok (.ok result)
             else response.decode result) with
      | .error e => .error e
      | .ok (.error f) =>
        .ok (.rpcError { message := f.report, code := -2, data := f.errors })
      | .ok (.ok output) => .ok (.value output)

/-- A typed client call `{ method, params, async? }` (an absent `async`
flag is modelled as `false`, its only falsy reading in the source). -/
structure ClientPayload where
  method : String
  params : JsValue
  async : Bool
  deriving Repr

/-- The outbound part of a prepared item, plus what its `process` closure
captured (response codec and `async` flag). -/
structure PreparedItem where
  method : String
  params : JsValue
  id : JsValue
  response : Codec
  async : Bool

/-- Table lookup `methods[method]`.  The TypeScript type system guarantees
the method name is a key of the table, so the fallback entry is unreachable;
every theorem hypothesises the name is present. -/
def getMethod (methods : Methods) (name : String) : Method :=
  (lookupMethod methods name).getD
    { request := { props := [], decode := fun v => .ok (.ok v), encode := .ok }
    , response := { props := [], decode := fun v => .ok (.ok v), encode := .ok } }

/-- Source `prepare` (lines 294-343): encode the params (unless disabled),
assign the next counter value as id — or no id for an `async` call, which
leaves the counter untouched — and capture the response-processing closure.
A throw from the request encode propagates. -/
def prepare (methods : Methods) (options : ClientOptions) (counter : Nat)
    (payload : ClientPayload) : Except JsValue (PreparedItem × Nat) :=
  let m := getMethod methods payload.method
  match (if options.encode == some false then .ok payload.params
         else m.request.encode payload.params) with
  | .error e => .error e
  | .ok params =>
    if payload.async then
      .ok ({ method := payload.method, params := params, id := .undefined
           , response := m.response, async := true }, counter)
    else
      .ok ({ method := payload.method, params := params, id := .num counter
           , response := m.response, async := false }, counter + 1)

/-- The outbound envelope `{ jsonrpc, method, params, id }` of a prepared
item. -/
def requestEnvelope (item : PreparedItem) : JsValue :=
  .obj [("jsonrpc", .str "2.0"), ("method", .str item.method),
        ("params", item.params), ("id", item.id)]

/-- Outcome of a single client call: the value returned, an `RpcError`
thrown by the `if (response instanceof RpcError) throw response` line, or
some other exception propagating. -/
inductive CallOutcome where
  | returned (v : JsValue)
  | threw (e : RpcError)
  | exception (e : JsValue)
  deriving Repr, DecidableEq

/-- A single client call (source `rpcClient`, lines 345-354).  `send` is
the transport: it receives the outbound envelope and yields the raw
response body (`.error` modelling a rejected send). -/
def rpcClient (methods : Methods) (options : ClientOptions)
    (send : JsValue → Except JsValue JsValue) (counter : Nat)
    (payload : ClientPayload) : CallOutcome :=
  match prepare methods options counter payload with
  | .error e => .exception e
  | .ok (item, _) =>
    match send (requestEnvelope item) with
    | .error e => .exception e
    | .ok body =>
      match processBody item.response options item.async body with
      | .error e => .exception e
      | .ok (.rpcError e) => .threw e
      | .ok (.value v) => .returned v

/-- Source `payload.map(prepare)`: prepare every item left to right,
threading the shared id counter (which only non-`async` items advance). -/
def prepareAll (methods : Methods) (options : ClientOptions) :
    List ClientPayload → Nat → Except JsValue (List PreparedItem × Nat)
  | [], counter => .ok ([], counter)
  | p :: ps, counter =>
    match prepare methods options counter p with
    | .error e => .error e
    | .ok (item, counter₁) =>
      match prepareAll methods options ps counter₁ with
      | .error e => .error e
      | .ok (items, counter₂) => .ok (item :: items, counter₂)

/-- Source `data.map(data => [data.id, data])` (line 385): tabulating the
reply reads `data.id` on each unchecked entry, so a null/undefined entry
throws a TypeError and rejects the whole batch before any slot is
resolved. -/
def replyPairs : List JsValue → Except JsValue (List (JsValue × JsValue))
  | [] => .ok []
  | d :: ds =>
    match d.getT "id" with
    | .error e => .error e
    | .ok i =>
      match replyPairs ds with
      | .error e => .error e
      | .ok rest => .ok ((i, d) :: rest)

/-- `new Map(pairs)` followed by `.get k`: the value of the **last** pair
whose key equals `k` (later `Map` insertions overwrite earlier ones), or
`undefined` when there is none. -/
def mapGet (pairs : List (JsValue × JsValue)) (k : JsValue) : JsValue :=
  match pairs.reverse.find? fun p => p.1 == k with
  | some p => p.2
  | none => .undefined

/-- Outcome of a batch call: the per-slot results in submission order, a
thrown `RpcError` (non-array reply), or another exception propagating. -/
inductive ManyOutcome where
  | returned (slots : List ProcessOut)
  | threw (e : RpcError)
  | exception (e : JsValue)
  deriving Repr, DecidableEq

/-- A batch client call (source `rpcClient.many`, lines 356-387): prepare
all items, send their envelopes as one array, require an array reply, and
resolve each item — in the order the items were submitted — by looking its
own id up in the reply table.  A slot whose processing yields an `RpcError`
keeps it in place; it aborts nothing. -/
def rpcMany (methods : Methods) (options : ClientOptions)
    (send : JsValue → Except JsValue JsValue) (counter : Nat)
    (payloads : List ClientPayload) : ManyOutcome :=
  match prepareAll methods options payloads counter with
  | .error e => .exception e
  | .ok (items, _) =>
    match send (.arr (items.map requestEnvelope)) with
    | .error e => .exception e
    | .ok data =>
      match data with
      | .arr entries =>
        match replyPairs entries with
        | .error e => .exception e
        | .ok pairs =>
          match collectResults (items.map fun item =>
              processBody item.response options item.async
                (mapGet pairs item.id)) with
          | .error e => .exception e
          | .ok slots => .returned slots
      | _ => .threw { message := "Invalid response", code := -1, data := .undefined }

/-! ### Concrete fixtures (the method table of the repository's test suite,
with identity codecs standing for io-ts codecs on valid input) -/

/-- A request message object with the four envelope fields. -/
def mkMessage (jsonrpc id method params : JsValue) : JsValue :=
  .obj [("jsonrpc", jsonrpc), ("id", id), ("method", method), ("params", params)]

/-- A codec with declared key `arg` whose decode and encode accept
everything unchanged and never throw. -/
def echoCodec : Codec :=
  { props := ["arg"], decode := fun v => .ok (.ok v), encode := fun v => .ok v }

/-- A one-method table: `echo`. -/
def sampleMethods : Methods :=
  [("echo", { request := echoCodec, response := echoCodec })]

/-- Resolvers answering every call with its own decoded params. -/
def sampleResolvers : Resolvers Unit := fun _ params _ _ => .ok params

/-- Resolvers that throw `{ code: 7, message: "boom", data: "extra" }`. -/
def throwResolvers : Resolvers Unit := fun _ _ _ _ =>
  .error (.obj [("code", .num 7), ("message", .str "boom"), ("data", .str "extra")])

/-- Resolvers that throw the value `null` itself. -/
def nullThrowResolvers : Resolvers Unit := fun _ _ _ _ => .error .null

/-- A table whose single method has a response codec that throws on
encode. -/
def badEncodeMethods : Methods :=
  [("bad", { request := { props := [], decode := fun v => .ok (.ok v), encode := fun v => .ok v }
           , response := { props := [], decode := fun v => .ok (.ok v)
                         , encode := fun _ => .error (.str "boom") } })]

/-- A table whose single method has a response codec that throws the value
`null` on encode. -/
def nullEncodeMethods : Methods :=
  [("bad", { request := { props := [], decode := fun v => .ok (.ok v), encode := fun v => .ok v }
           , response := { props := [], decode := fun v => .ok (.ok v)
                         , encode := fun _ => .error .null } })]

/-- A table whose single method has a request codec that throws on
decode. -/
def badDecodeMethods : Methods :=
  [("bad", { request := { props := [], decode := fun _ => .error (.str "boom")
                        , encode := fun v => .ok v }
           , response := { props := [], decode := fun v => .ok (.ok v)
                         , encode := fun v => .ok v } })]

/-! ### Helper lemmas -/

theorem obj_beq_null (fields : List (String × JsValue)) :
    (JsValue.obj fields == JsValue.null) = false := rfl

theorem obj_typeof (fields : List (String × JsValue)) :
    (JsValue.obj fields).typeof = "object" := rfl

theorem obj_isArray (fields : List (String × JsValue)) :
    (JsValue.obj fields).isArray = false := rfl

/-- Property reads on a receiver that is not null/undefined never throw. -/
theorem getT_not_nullish (v : JsValue) (key : String) (h1 : v ≠ .null)
    (h2 : v ≠ .undefined) : v.getT key = .ok (v.get key) := by
  cases v <;> simp_all [JsValue.getT]

/-- A successful unchecked read pins the receiver as non-nullish and the
value as the checked read. -/
theorem getT_ok_inv (v : JsValue) (key : String) (i : JsValue)
    (h : v.getT key = .ok i) : v ≠ .null ∧ v ≠ .undefined ∧ i = v.get key := by
  cases v <;> simp_all [JsValue.getT]

/-- The catch clause crashes on a thrown `null`. -/
theorem caughtToError_null : caughtToError .null = .error TYPE_ERROR := rfl

/-- The catch clause crashes on a thrown `undefined`. -/
theorem caughtToError_undefined : caughtToError .undefined = .error TYPE_ERROR := rfl

/-- On a non-nullish thrown value the catch clause builds the error object
from the thrown value's fields. -/
theorem caughtToError_ok (err : JsValue) (h1 : err ≠ .null) (h2 : err ≠ .undefined) :
    caughtToError err = .ok
      { code := match err.get "code" with
          | .num n => n
          | _ => (-32603 : Rat)
      , message := (err.get "message").orElse (.str "Internal error")
      , data := err.get "data" } := by
  cases err <;> first | rfl | simp_all

/-- A name with an own table entry passes the `in` test. -/
theorem methodsHas_of_lookup (methods : Methods) (name : String) (schema : Method)
    (h : lookupMethod methods name = some schema) : methodsHas methods name = true := by
  simp [methodsHas, h]

/-- Reduction of `processRequest` on a message that passes every envelope
check, down to the decode/dispatch stage. -/
theorem processRequest_reduces {C : Type} (methods : Methods) (resolvers : Resolvers C)
    (context : C) (options : ServerOptions) (fields : List (String × JsValue))
    (name : String) (schema : Method) (data : JsValue)
    (hjsonrpc : (JsValue.obj fields).get "jsonrpc" = .str "2.0")
    (hmethod : (JsValue.obj fields).get "method" = .str name)
    (hvalid : isJsonRpcId ((JsValue.obj fields).get "id") = true)
    (hlookup : lookupMethod methods name = some schema)
    (hnorm : normalizeParams schema.request.props ((JsValue.obj fields).get "params") = some data) :
    processRequest methods resolvers (.obj fields) context options =
      dispatchDecoded resolvers schema name context options ((JsValue.obj fields).get "id")
        (((JsValue.obj fields).get "id") == .undefined)
        (if options.decode == some false then .ok (.ok data)
         else schema.request.decode data) := by
  simp only [processRequest, obj_beq_null, obj_typeof, hjsonrpc, hmethod, hvalid, hlookup,
    hnorm, methodsHas_of_lookup methods name schema hlookup, Bool.false_or,
    bne_self_eq_false, Bool.not_true, Bool.false_eq_true, if_false, ite_false]

/-- Collecting pointwise-successful results succeeds with the mapped
list. -/
theorem collectResults_of_pointwise {α β ε : Type} (f : α → Except ε β) (g : α → β) :
    (l : List α) → (∀ a ∈ l, f a = .ok (g a)) →
    collectResults (l.map f) = .ok (l.map g)
  | [], _ => rfl
  | a :: as, h => by
    have ht := collectResults_of_pointwise f g as fun b hb => h b (List.mem_cons_of_mem a hb)
    simp [collectResults, h a (List.mem_cons_self a as), ht, Except.map]

/-- Collecting a list of pointwise-related successful results. -/
theorem collectResults_of_forall₂ {α β ε : Type} (f : α → Except ε β) :
    (l : List α) → (rs : List β) → List.Forall₂ (fun a b => f a = .ok b) l rs →
    collectResults (l.map f) = .ok rs
  | [], [], _ => rfl
  | a :: as, b :: bs, h => by
    rcases h with _ | ⟨hab, ht⟩
    have := collectResults_of_forall₂ f as bs ht
    simp [collectResults, hab, this, Except.map]

/-- When at most one element satisfies the predicate, `find?` does not
depend on the order of the list. -/
theorem find?_congr_of_perm {α : Type} (p : α → Bool) (l l' : List α) (hp : l.Perm l')
    (hu : ∀ a ∈ l, ∀ b ∈ l, p a = true → p b = true → a = b) :
    l.find? p = l'.find? p := by
  cases h1 : l.find? p with
  | none =>
    cases h2 : l'.find? p with
    | none => rfl
    | some b =>
      have hb := List.find?_some h2
      have hbm : b ∈ l := hp.symm.subset (List.mem_of_find?_eq_some h2)
      rw [List.find?_eq_none] at h1
      exact absurd hb (by simpa using h1 b hbm)
  | some a =>
    have ha := List.find?_some h1
    have ham := List.mem_of_find?_eq_some h1
    cases h2 : l'.find? p with
    | none =>
      rw [List.find?_eq_none] at h2
      exact absurd ha (by simpa using h2 a (hp.subset ham))
    | some b =>
      have hb := List.find?_some h2
      have hbm : b ∈ l := hp.symm.subset (List.mem_of_find?_eq_some h2)
      exact congrArg some (hu a ham b hbm ha hb)

/-- With pairwise-distinct keys, a Map lookup does not depend on the order
the pairs were inserted. -/
theorem mapGet_perm (pairs pairs' : List (JsValue × JsValue)) (hp : pairs.Perm pairs')
    (hn : (pairs.map Prod.fst).Nodup) (k : JsValue) :
    mapGet pairs k = mapGet pairs' k := by
  have hperm : pairs.reverse.Perm pairs'.reverse :=
    (pairs.reverse_perm.trans hp).trans pairs'.reverse_perm.symm
  have hu : ∀ a ∈ pairs.reverse, ∀ b ∈ pairs.reverse,
      (a.1 == k) = true → (b.1 == k) = true → a = b := by
    intro a hma b hmb hak hbk
    rw [List.mem_reverse] at hma hmb
    have hab : a.1 = b.1 := by
      rw [eq_of_beq hak, eq_of_beq hbk]
    exact List.inj_on_of_nodup_map hn hma hmb hab
  unfold mapGet
  rw [find?_congr_of_perm _ pairs.reverse pairs'.reverse hperm hu]

/-- Tabulating a reply without nullish entries succeeds and pairs every
entry with its own id. -/
theorem replyPairs_ok (entries : List JsValue)
    (h : ∀ d ∈ entries, d ≠ .null ∧ d ≠ .undefined) :
    replyPairs entries = .ok (entries.map fun d => (d.get "id", d)) := by
  induction entries with
  | nil => rfl
  | cons d ds ih =>
    obtain ⟨h1, h2⟩ := h d (List.mem_cons_self d ds)
    simp [replyPairs, getT_not_nullish d "id" h1 h2,
      ih fun x hx => h x (List.mem_cons_of_mem d hx)]

/-- A successful reply tabulation pins the pairs' shape and the entries as
non-nullish. -/
theorem replyPairs_ok_inv :
    (entries : List JsValue) → (pairs : List (JsValue × JsValue)) →
    replyPairs entries = .ok pairs →
    pairs = (entries.map fun d => (d.get "id", d))
      ∧ ∀ d ∈ entries, d ≠ .null ∧ d ≠ .undefined
  | [], pairs, h => by
    simp only [replyPairs, Except.ok.injEq] at h
    simp [← h]
  | d :: ds, pairs, h => by
    unfold replyPairs at h
    cases hd : d.getT "id" with
    | error e =>
      rw [hd] at h
      simp at h
    | ok i =>
      rw [hd] at h
      dsimp only at h
      cases hrest : replyPairs ds with
      | error e =>
        rw [hrest] at h
        simp at h
      | ok rest =>
        rw [hrest] at h
        simp only [Except.ok.injEq] at h
        obtain ⟨hn1, hn2, hi⟩ := getT_ok_inv d "id" i hd
        obtain ⟨hshape, hnn⟩ := replyPairs_ok_inv ds rest hrest
        constructor
        · rw [← h, hshape, hi]
          rfl
        · intro x hx
          rcases List.mem_cons.mp hx with hx0 | hx0
          · subst hx0
            exact ⟨hn1, hn2⟩
          · exact hnn x hx0

/-- The fractional number 123.5, built with an explicit numerator and
denominator so that kernel reduction works on it. -/
def frac1235 : Rat := ⟨247, 2, by norm_num, by norm_num⟩

/-- Batch-witness fixtures: one normal call and one notification. -/
def c7payloads : List ClientPayload :=
  [{ method := "echo", params := .obj [], async := false },
   { method := "echo", params := .obj [], async := true }]

/-- Client options that disable both codecs, so reply bodies pass through
unchanged. -/
def c7opts : ClientOptions := { decode := some false, encode := some false }

def c7entryA : JsValue := .obj [("id", .num 0), ("result", .str "a")]

def c7entryB : JsValue := .obj [("id", .num 1), ("result", .str "b")]

/-- The prepared items of `c7payloads` at counter 0. -/
def c7itemN : PreparedItem :=
  { method := "echo", params := .obj [], id := .num 0, response := echoCodec
  , async := false }

def c7itemA : PreparedItem :=
  { method := "echo", params := .obj [], id := .undefined, response := echoCodec
  , async := true }

/-! ### Claim theorems -/

/-- C4: a payload that is `null` or not an object is rejected with error
code -32600 and id `null`; so is an object payload whose `id` field is
neither absent, `null`, a string, nor an integer-valued number; and the id
validity predicate accepts exactly `null`, `undefined`, strings and
integer-valued numbers. -/
theorem c4_invalid_shape_and_id {C : Type} (methods : Methods) (resolvers : Resolvers C)
    (context : C) (options : ServerOptions) :
    (∀ v : JsValue, isJsonRpcId v = true ↔
        (v = .null ∨ v = .undefined ∨ (∃ s, v = .str s) ∨ ∃ n : Rat, v = .num n ∧ n.den = 1))
    ∧ (∀ payload : JsValue, payload = .null ∨ payload.typeof ≠ "object" →
        processRequest methods resolvers payload context options =
          .ok (some (.failure INVALID_REQUEST .null)))
    ∧ (∀ fields : List (String × JsValue),
        isJsonRpcId ((JsValue.obj fields).get "id") = false →
        processRequest methods resolvers (.obj fields) context options =
          .ok (some (.failure INVALID_REQUEST .null))) := by
  refine ⟨fun v => ?_, fun payload h => ?_, fun fields h => ?_⟩
  · cases v <;> simp [isJsonRpcId]
  · rcases h with h | h
    · subst h
      simp [processRequest, JsonRpc.failure]
    · cases payload <;>
        simp_all [processRequest, JsValue.typeof, JsonRpc.failure]
  · simp [processRequest, obj_beq_null, obj_typeof, h, JsonRpc.failure]

/-- C4 witness: the two spec examples — `id` an object and `id` fractional
— and `123` as payload, all rejected with code -32600 and id null. -/
theorem c4_witness :
    processRequest sampleMethods sampleResolvers (.num 123) () {} =
      .ok (some (.failure INVALID_REQUEST .null))
    ∧ processRequest sampleMethods sampleResolvers
        (.obj [("jsonrpc", .str "2.0"), ("id", .obj [])]) () {} =
      .ok (some (.failure INVALID_REQUEST .null))
    ∧ processRequest sampleMethods sampleResolvers
        (.obj [("jsonrpc", .str "2.0"), ("id", .num frac1235)]) () {} =
      .ok (some (.failure INVALID_REQUEST .null))
    ∧ isJsonRpcId (.num frac1235) = false :=
  ⟨(c4_invalid_shape_and_id sampleMethods sampleResolvers () {}).2.1 (.num 123)
      (Or.inr (by decide)),
   (c4_invalid_shape_and_id sampleMethods sampleResolvers () {}).2.2
      [("jsonrpc", .str "2.0"), ("id", .obj [])] (by decide),
   (c4_invalid_shape_and_id sampleMethods sampleResolvers () {}).2.2
      [("jsonrpc", .str "2.0"), ("id", .num frac1235)] (by decide),
   by decide⟩

/-- C1: a well-formed non-notification request to a known method whose
params normalize and decode successfully and whose resolver and response
encode return normally produces a success envelope carrying the request's
own id and a result (by construction, a success envelope has no error
field). -/
theorem c1_success_envelope {C : Type} (methods : Methods) (resolvers : Resolvers C)
    (context : C) (options : ServerOptions) (fields : List (String × JsValue))
    (id : JsValue) (name : String) (schema : Method) (data decoded ret out : JsValue)
    (hjsonrpc : (JsValue.obj fields).get "jsonrpc" = .str "2.0")
    (hmethod : (JsValue.obj fields).get "method" = .str name)
    (hid : (JsValue.obj fields).get "id" = id)
    (hidvalid : isJsonRpcId id = true)
    (hidpresent : id ≠ .undefined)
    (hlookup : lookupMethod methods name = some schema)
    (hnorm : normalizeParams schema.request.props ((JsValue.obj fields).get "params") = some data)
    (hdec : options.decode ≠ some false)
    (henc : options.encode ≠ some false)
    (hdecode : schema.request.decode data = .ok (.ok decoded))
    (hresolve : resolvers name decoded context { id := id, isNotification := false } = .ok ret)
    (hencode : schema.response.encode ret = .ok out) :
    processRequest methods resolvers (.obj fields) context options =
      .ok (some (.success out id)) := by
  have hnotif : (id == JsValue.undefined) = false := beq_eq_false_iff_ne.mpr hidpresent
  have hdec' : (options.decode == some false) = false := beq_eq_false_iff_ne.mpr hdec
  have henc' : (options.encode == some false) = false := beq_eq_false_iff_ne.mpr henc
  rw [processRequest_reduces methods resolvers context options fields name schema data
    hjsonrpc hmethod (hid ▸ hidvalid) hlookup hnorm, hid]
  simp [dispatchDecoded, hdec', henc', hdecode, hresolve, hnotif, hencode,
    JsonRpc.success]

/-- C1 witness: a concrete echo request with id 1 produces a success
envelope with id 1 carrying the decoded params as result. -/
theorem c1_witness :
    processRequest sampleMethods sampleResolvers
      (mkMessage (.str "2.0") (.num 1) (.str "echo") (.obj [("arg", .str "x")])) () {} =
      .ok (some (.success (.obj [("arg", .str "x")]) (.num 1))) :=
  c1_success_envelope sampleMethods sampleResolvers () {}
    [("jsonrpc", .str "2.0"), ("id", .num 1), ("method", .str "echo"),
     ("params", .obj [("arg", .str "x")])]
    (.num 1) "echo" { request := echoCodec, response := echoCodec }
    (.obj [("arg", .str "x")]) (.obj [("arg", .str "x")]) (.obj [("arg", .str "x")])
    (.obj [("arg", .str "x")])
    rfl rfl rfl (by decide) (by decide) rfl rfl (by decide) (by decide) rfl rfl rfl

/-- C5 counterexample: a resolver that throws the value `null` on a
non-notification request produces no failure envelope at all — the catch
clause crashes reading `err.code` and the TypeError propagates out of the
request processor as a rejection. -/
theorem c5_counterexample :
    processRequest sampleMethods nullThrowResolvers
      (mkMessage (.str "2.0") (.num 1) (.str "echo") (.obj [("arg", .str "x")])) () {} =
      .error TYPE_ERROR := by decide

/-- C5 amended: a non-notification request whose resolver throws a
non-nullish value produces a failure envelope echoing the request's id; the
thrown value's numeric `code` and its `data` are propagated, a non-numeric
or absent `code` defaults to -32603, and the message is the thrown value's
truthy `message` or the generic "Internal error".  A resolver that throws
null or undefined instead crashes the catch clause at `err.code` and the
TypeError propagates. -/
theorem c5_resolver_throw {C : Type} (methods : Methods) (resolvers : Resolvers C)
    (context : C) (options : ServerOptions) (fields : List (String × JsValue))
    (id : JsValue) (name : String) (schema : Method) (data decoded err : JsValue)
    (hjsonrpc : (JsValue.obj fields).get "jsonrpc" = .str "2.0")
    (hmethod : (JsValue.obj fields).get "method" = .str name)
    (hid : (JsValue.obj fields).get "id" = id)
    (hidvalid : isJsonRpcId id = true)
    (hidpresent : id ≠ .undefined)
    (hlookup : lookupMethod methods name = some schema)
    (hnorm : normalizeParams schema.request.props ((JsValue.obj fields).get "params") = some data)
    (hdec : options.decode ≠ some false)
    (hdecode : schema.request.decode data = .ok (.ok decoded))
    (hresolve : resolvers name decoded context { id := id, isNotification := false } =
      .error err) :
    (err ≠ .null → err ≠ .undefined →
      processRequest methods resolvers (.obj fields) context options =
        .ok (some (.failure
          { code := match err.get "code" with
              | .num n => n
              | _ => (-32603 : Rat)
          , message := if (err.get "message").truthy then err.get "message"
              else .str "Internal error"
          , data := err.get "data" } id)))
    ∧ (err = .null ∨ err = .undefined →
      processRequest methods resolvers (.obj fields) context options =
        .error TYPE_ERROR) := by
  have hnotif : (id == JsValue.undefined) = false := beq_eq_false_iff_ne.mpr hidpresent
  have hdec' : (options.decode == some false) = false := beq_eq_false_iff_ne.mpr hdec
  have hred := processRequest_reduces methods resolvers context options fields name schema
    data hjsonrpc hmethod (hid ▸ hidvalid) hlookup hnorm
  constructor
  · intro h1 h2
    rw [hred, hid]
    simp [dispatchDecoded, hdec', hdecode, hresolve, hnotif,
      caughtToError_ok err h1 h2, JsonRpc.failure, JsValue.orElse]
  · intro h
    rw [hred, hid]
    rcases h with h | h <;> subst h <;>
      simp [dispatchDecoded, hdec', hdecode, hresolve, hnotif, caughtToError,
        JsValue.getT]

/-- C5 witness: a resolver throwing `code: 7, message: "boom", data:
"extra"` yields a failure envelope with exactly those fields, echoing id 1,
while a resolver throwing `null` makes the processor reject with the
TypeError. -/
theorem c5_witness :
    processRequest sampleMethods throwResolvers
      (mkMessage (.str "2.0") (.num 1) (.str "echo") (.obj [("arg", .str "x")])) () {} =
      .ok (some (.failure
        { code := 7, message := .str "boom", data := .str "extra" } (.num 1)))
    ∧ processRequest sampleMethods nullThrowResolvers
        (mkMessage (.str "2.0") (.num 2) (.str "echo") (.obj [("arg", .str "x")])) () {} =
      .error TYPE_ERROR :=
  ⟨(c5_resolver_throw sampleMethods throwResolvers () {}
      [("jsonrpc", .str "2.0"), ("id", .num 1), ("method", .str "echo"),
       ("params", .obj [("arg", .str "x")])]
      (.num 1) "echo" { request := echoCodec, response := echoCodec }
      (.obj [("arg", .str "x")]) (.obj [("arg", .str "x")])
      (.obj [("code", .num 7), ("message", .str "boom"), ("data", .str "extra")])
      rfl rfl rfl (by decide) (by decide) rfl rfl (by decide) rfl rfl).1
      (by decide) (by decide),
   (c5_resolver_throw sampleMethods nullThrowResolvers () {}
      [("jsonrpc", .str "2.0"), ("id", .num 2), ("method", .str "echo"),
       ("params", .obj [("arg", .str "x")])]
      (.num 2) "echo" { request := echoCodec, response := echoCodec }
      (.obj [("arg", .str "x")]) (.obj [("arg", .str "x")]) .null
      rfl rfl rfl (by decide) (by decide) rfl rfl (by decide) rfl rfl).2
      (Or.inl rfl)⟩

/-- C3: the server handler rejects an empty batch with a single Invalid
Request failure at id null; a non-empty batch is the positional list of the
elements' request-processor results with the absent (notification) results
dropped, so the remaining envelopes keep the submission order of their
requests. -/
theorem c3_batch_dispatch {C : Type} (methods : Methods) (resolvers : Resolvers C)
    (context : C) (options : ServerOptions) :
    rpcServer methods resolvers options (.arr []) context =
      .ok (.single (some (.failure INVALID_REQUEST .null)))
    ∧ (∀ elements : List JsValue, elements ≠ [] →
        rpcServer methods resolvers options (.arr elements) context =
          (collectResults (elements.map fun x =>
              processRequest methods resolvers x context options)).map
            fun results => .batch (results.filterMap id))
    ∧ (∀ (elements : List JsValue) (results : List (Option RpcResponse)),
        elements ≠ [] →
        List.Forall₂ (fun x r =>
          processRequest methods resolvers x context options = .ok r) elements results →
        rpcServer methods resolvers options (.arr elements) context =
          .ok (.batch (results.filterMap id))) := by
  have hempty : rpcServer methods resolvers options (.arr []) context =
      .ok (.single (some (.failure INVALID_REQUEST .null))) := by
    simp [rpcServer, JsonRpc.failure]
  have hne : ∀ elements : List JsValue, elements ≠ [] →
      rpcServer methods resolvers options (.arr elements) context =
        (collectResults (elements.map fun x =>
            processRequest methods resolvers x context options)).map
          fun results => .batch (results.filterMap id) := by
    intro elements h
    have hlen : ¬ elements.length = 0 := by
      simpa [List.length_eq_zero] using h
    simp [rpcServer, hlen]
  refine ⟨hempty, hne, fun elements results h hf => ?_⟩
  rw [hne elements h, collectResults_of_forall₂ _ elements results hf]
  rfl

/-- C3 witness: the spec's two-call batch yields two success envelopes in
submission order with ids 1 and 2, and the empty batch is rejected. -/
theorem c3_witness :
    rpcServer sampleMethods sampleResolvers {}
      (.arr [mkMessage (.str "2.0") (.num 1) (.str "echo") (.obj []),
             mkMessage (.str "2.0") (.num 2) (.str "echo") (.obj [])]) () =
      .ok (.batch [.success (.obj []) (.num 1), .success (.obj []) (.num 2)])
    ∧ rpcServer sampleMethods sampleResolvers {} (.arr []) () =
      .ok (.single (some (.failure INVALID_REQUEST .null))) :=
  ⟨(c3_batch_dispatch sampleMethods sampleResolvers () {}).2.2
      [mkMessage (.str "2.0") (.num 1) (.str "echo") (.obj []),
       mkMessage (.str "2.0") (.num 2) (.str "echo") (.obj [])]
      [some (.success (.obj []) (.num 1)), some (.success (.obj []) (.num 2))]
      (by decide)
      (.cons (by decide) (.cons (by decide) .nil)),
   (c3_batch_dispatch sampleMethods sampleResolvers () {}).1⟩

theorem mkMessage_get_jsonrpc (j i m p : JsValue) :
    (mkMessage j i m p).get "jsonrpc" = j := rfl

theorem mkMessage_get_id (j i m p : JsValue) :
    (mkMessage j i m p).get "id" = i := rfl

theorem mkMessage_get_method (j i m p : JsValue) :
    (mkMessage j i m p).get "method" = m := rfl

theorem mkMessage_get_params (j i m p : JsValue) :
    (mkMessage j i m p).get "params" = p := rfl

theorem mkMessage_beq_null (j i m p : JsValue) :
    (mkMessage j i m p == JsValue.null) = false := rfl

theorem mkMessage_typeof (j i m p : JsValue) :
    (mkMessage j i m p).typeof = "object" := rfl

/-- Processing a request to a method the table declares depends on `params`
only through its normalization against that method's declared keys. -/
theorem processRequest_known_params_congr {C : Type} (methods : Methods)
    (resolvers : Resolvers C) (context : C) (options : ServerOptions)
    (jsonrpc idv : JsValue) (name : String) (schema : Method) (p q : JsValue)
    (hl : lookupMethod methods name = some schema)
    (h : normalizeParams schema.request.props p = normalizeParams schema.request.props q) :
    processRequest methods resolvers (mkMessage jsonrpc idv (.str name) p) context options =
      processRequest methods resolvers (mkMessage jsonrpc idv (.str name) q)
        context options := by
  simp only [processRequest, mkMessage_beq_null, mkMessage_typeof, mkMessage_get_jsonrpc,
    mkMessage_get_id, mkMessage_get_method, mkMessage_get_params, hl,
    methodsHas_of_lookup methods name schema hl, h]

/-- C6 counterexample: a notification (no id) with primitive params does
not produce an Invalid Request failure envelope at all — the failure
wrapper suppresses it at the absent id and the processor returns nothing. -/
theorem c6_counterexample :
    processRequest sampleMethods sampleResolvers
      (.obj [("jsonrpc", .str "2.0"), ("method", .str "echo"),
             ("params", .str "test")]) () {} = .ok none := by decide

/-- C6 amended: at the params-normalization step, array params are
converted to an object by assigning the array's values positionally to the
request shape's declared keys in declaration order (so processing a request
with array params equals processing it with that positional object); absent
params become the empty object; object params pass through; and any other
primitive value is rejected at the normalization step — an Invalid Request
failure echoing the request's id when the id is present, and nothing (the
failure is suppressed) for a notification. -/
theorem c6_params_shim {C : Type} (methods : Methods) (resolvers : Resolvers C)
    (context : C) (options : ServerOptions) :
    (∀ (props : List String) (xs : List JsValue), normalizeParams props (.arr xs) =
        some (.obj (props.mapIdx fun index key => (key, xs.getD index .undefined))))
    ∧ (∀ props : List String, normalizeParams props .undefined = some (.obj []))
    ∧ (∀ (props : List String) (fs : List (String × JsValue)),
        normalizeParams props (.obj fs) = some (.obj fs))
    ∧ (∀ (props : List String) (p : JsValue),
        p.typeof = "string" ∨ p.typeof = "number" ∨ p.typeof = "boolean" →
        normalizeParams props p = none)
    ∧ (∀ (jsonrpc idv : JsValue) (name : String) (xs : List JsValue) (schema : Method),
        lookupMethod methods name = some schema →
        processRequest methods resolvers (mkMessage jsonrpc idv (.str name) (.arr xs))
            context options =
          processRequest methods resolvers
            (mkMessage jsonrpc idv (.str name)
              (.obj (schema.request.props.mapIdx fun index key => (key, xs.getD index .undefined))))
            context options)
    ∧ (∀ (fields : List (String × JsValue)) (id : JsValue) (name : String)
          (schema : Method) (p : JsValue),
        (JsValue.obj fields).get "jsonrpc" = .str "2.0" →
        (JsValue.obj fields).get "method" = .str name →
        (JsValue.obj fields).get "id" = id → isJsonRpcId id = true →
        lookupMethod methods name = some schema →
        (JsValue.obj fields).get "params" = p →
        (p.typeof = "string" ∨ p.typeof = "number" ∨ p.typeof = "boolean") →
        processRequest methods resolvers (.obj fields) context options =
          .ok (JsonRpc.failure INVALID_REQUEST id))
    ∧ (∀ (e : RpcErrorObj) (id : JsValue), id ≠ .undefined →
        JsonRpc.failure e id = some (.failure e id)) := by
  have hprim : ∀ (props : List String) (p : JsValue),
      p.typeof = "string" ∨ p.typeof = "number" ∨ p.typeof = "boolean" →
      normalizeParams props p = none := by
    intro props p h
    cases p <;> simp_all [JsValue.typeof, normalizeParams, JsValue.isArray]
  refine ⟨fun props xs => rfl, fun props => rfl, fun props fs => rfl, hprim,
    fun jsonrpc idv name xs schema hl => ?_, fun fields id name schema p hj hm hid hv hl hp hprim' => ?_,
    fun e id h => ?_⟩
  · exact processRequest_known_params_congr methods resolvers context options jsonrpc idv
      name schema (.arr xs) _ hl rfl
  · simp only [processRequest, obj_beq_null, obj_typeof, hj, hm, hid ▸ hv, hl, hp,
      methodsHas_of_lookup methods name schema hl, hprim' ,
      hprim schema.request.props p hprim', Bool.false_or, bne_self_eq_false,
      Bool.not_true, Bool.false_eq_true, if_false, ite_false]
    rw [hid]
  · simp [JsonRpc.failure, beq_eq_false_iff_ne.mpr h]

/-- C6 witness: array params are positionally assigned (processing equals
the positional-object form, and both produce a success echoing the array
value under the declared key `arg`), and a concrete primitive `params:
"test"` yields an Invalid Request failure echoing id "test". -/
theorem c6_witness :
    processRequest sampleMethods sampleResolvers
      (mkMessage (.str "2.0") (.num 1) (.str "echo") (.arr [.str "pos"])) () {} =
      processRequest sampleMethods sampleResolvers
        (mkMessage (.str "2.0") (.num 1) (.str "echo")
          (.obj [("arg", .str "pos")])) () {}
    ∧ processRequest sampleMethods sampleResolvers
        (mkMessage (.str "2.0") (.str "test") (.str "echo") (.str "test")) () {} =
      .ok (some (.failure INVALID_REQUEST (.str "test"))) :=
  ⟨(c6_params_shim sampleMethods sampleResolvers () {}).2.2.2.2.1
      (.str "2.0") (.num 1) "echo" [.str "pos"]
      { request := echoCodec, response := echoCodec } rfl,
   (c6_params_shim sampleMethods sampleResolvers () {}).2.2.2.2.2.1
      [("jsonrpc", .str "2.0"), ("id", .str "test"), ("method", .str "echo"),
       ("params", .str "test")]
      (.str "test") "echo" { request := echoCodec, response := echoCodec } (.str "test")
      rfl rfl rfl rfl rfl rfl (Or.inl rfl)⟩

/-- C10: `params: null` is not rejected as Invalid Request: processing a
request with null params equals processing it with absent params, and the
decode stage receives the empty object. -/
theorem c10_null_params {C : Type} (methods : Methods) (resolvers : Resolvers C)
    (context : C) (options : ServerOptions) :
    (∀ props : List String, normalizeParams props .null = some (.obj []))
    ∧ (∀ jsonrpc idv method : JsValue,
        processRequest methods resolvers (mkMessage jsonrpc idv method .null)
            context options =
          processRequest methods resolvers (mkMessage jsonrpc idv method .undefined)
            context options)
    ∧ (∀ (fields : List (String × JsValue)) (id : JsValue) (name : String)
          (schema : Method),
        (JsValue.obj fields).get "jsonrpc" = .str "2.0" →
        (JsValue.obj fields).get "method" = .str name →
        (JsValue.obj fields).get "id" = id → isJsonRpcId id = true →
        lookupMethod methods name = some schema →
        (JsValue.obj fields).get "params" = .null →
        processRequest methods resolvers (.obj fields) context options =
          dispatchDecoded resolvers schema name context options id (id == .undefined)
            (if options.decode == some false then .ok (.ok (.obj []))
             else schema.request.decode (.obj []))) := by
  refine ⟨fun props => rfl, fun jsonrpc idv method => ?_, fun fields id name schema hj hm hid hv hl hp => ?_⟩
  · rfl
  · rw [processRequest_reduces methods resolvers context options fields name schema
      (.obj []) hj hm (hid ▸ hv) hl (by rw [hp]; rfl), hid]

/-- C10 witness: a concrete echo request with `params: null` processes
exactly as with absent params, and reduces to the decode of the empty
object (which then succeeds with an empty-object result). -/
theorem c10_witness :
    processRequest sampleMethods sampleResolvers
      (mkMessage (.str "2.0") (.num 1) (.str "echo") .null) () {} =
      processRequest sampleMethods sampleResolvers
        (mkMessage (.str "2.0") (.num 1) (.str "echo") .undefined) () {}
    ∧ processRequest sampleMethods sampleResolvers
        (mkMessage (.str "2.0") (.num 1) (.str "echo") .null) () {} =
      dispatchDecoded sampleResolvers { request := echoCodec, response := echoCodec }
        "echo" () {} (.num 1) ((JsValue.num 1) == .undefined)
        (if ({} : ServerOptions).decode == some false then .ok (.ok (.obj []))
         else echoCodec.decode (.obj [])) :=
  ⟨(c10_null_params sampleMethods sampleResolvers () {}).2.1
      (.str "2.0") (.num 1) (.str "echo"),
   (c10_null_params sampleMethods sampleResolvers () {}).2.2
      [("jsonrpc", .str "2.0"), ("id", .num 1), ("method", .str "echo"),
       ("params", .null)]
      (.num 1) "echo" { request := echoCodec, response := echoCodec }
      rfl rfl rfl (by decide) rfl rfl⟩

/-- C9 counterexample: with a response codec whose encode throws the string
"boom", the server handler does not let the exception propagate — it
returns an Internal Error failure envelope built from the thrown value by
the resolver-stage catch clause. -/
theorem c9_counterexample :
    rpcServer badEncodeMethods sampleResolvers {}
      (mkMessage (.str "2.0") (.num 1) (.str "bad") (.obj [])) () =
      .ok (.single (some (.failure
        { code := -32603, message := .str "Internal error", data := .undefined }
        (.num 1)))) := by decide

/-- C9 amended: an exception thrown by the method's request decode
propagates unmodified out of the request processor and out of the server
handler; an exception thrown by the response encode reaches the catch
clause of the try block around the resolver call: a non-nullish thrown
value is converted into a failure envelope, while a thrown null/undefined
crashes the catch clause itself at `err.code` and the resulting TypeError
propagates. -/
theorem c9_adapter_exceptions {C : Type} (methods : Methods) (resolvers : Resolvers C)
    (context : C) (options : ServerOptions) (fields : List (String × JsValue))
    (id : JsValue) (name : String) (schema : Method) (data : JsValue)
    (hjsonrpc : (JsValue.obj fields).get "jsonrpc" = .str "2.0")
    (hmethod : (JsValue.obj fields).get "method" = .str name)
    (hid : (JsValue.obj fields).get "id" = id)
    (hidvalid : isJsonRpcId id = true)
    (hlookup : lookupMethod methods name = some schema)
    (hnorm : normalizeParams schema.request.props ((JsValue.obj fields).get "params") = some data)
    (hdec : options.decode ≠ some false) :
    (∀ e : JsValue, schema.request.decode data = .error e →
        processRequest methods resolvers (.obj fields) context options = .error e
        ∧ rpcServer methods resolvers options (.obj fields) context = .error e)
    ∧ (∀ decoded ret err : JsValue, id ≠ .undefined →
        options.encode ≠ some false →
        schema.request.decode data = .ok (.ok decoded) →
        resolvers name decoded context { id := id, isNotification := false } = .ok ret →
        schema.response.encode ret = .error err →
        err ≠ .null → err ≠ .undefined →
        processRequest methods resolvers (.obj fields) context options =
          .ok (some (.failure
            { code := match err.get "code" with
                | .num n => n
                | _ => (-32603 : Rat)
            , message := if (err.get "message").truthy then err.get "message"
                else .str "Internal error"
            , data := err.get "data" } id)))
    ∧ (∀ decoded ret err : JsValue, id ≠ .undefined →
        options.encode ≠ some false →
        schema.request.decode data = .ok (.ok decoded) →
        resolvers name decoded context { id := id, isNotification := false } = .ok ret →
        schema.response.encode ret = .error err →
        (err = .null ∨ err = .undefined) →
        processRequest methods resolvers (.obj fields) context options =
          .error TYPE_ERROR) := by
  have hdec' : (options.decode == some false) = false := beq_eq_false_iff_ne.mpr hdec
  have hred := processRequest_reduces methods resolvers context options fields name schema
    data hjsonrpc hmethod (hid ▸ hidvalid) hlookup hnorm
  refine ⟨fun e he => ?_, fun decoded ret err hidp henc hdecode hresolve hencode h1 h2 => ?_,
    fun decoded ret err hidp henc hdecode hresolve hencode hnull => ?_⟩
  · have hproc : processRequest methods resolvers (.obj fields) context options = .error e := by
      rw [hred]
      simp [dispatchDecoded, hdec', he]
    exact ⟨hproc, by simp [rpcServer, hproc, Except.map]⟩
  · have hnotif : (id == JsValue.undefined) = false := beq_eq_false_iff_ne.mpr hidp
    have henc' : (options.encode == some false) = false := beq_eq_false_iff_ne.mpr henc
    rw [hred, hid]
    simp [dispatchDecoded, hdec', henc', hdecode, hresolve, hnotif, hencode,
      caughtToError_ok err h1 h2, JsonRpc.failure, JsValue.orElse]
  · have hnotif : (id == JsValue.undefined) = false := beq_eq_false_iff_ne.mpr hidp
    have henc' : (options.encode == some false) = false := beq_eq_false_iff_ne.mpr henc
    rw [hred, hid]
    rcases hnull with h | h <;> subst h <;>
      simp [dispatchDecoded, hdec', henc', hdecode, hresolve, hnotif, hencode,
        caughtToError, JsValue.getT]

/-- C9 witness: a request codec that throws "boom" on decode makes both the
request processor and the server handler reject with exactly that thrown
value; an encode throw of the string "boom" instead yields an Internal
Error envelope; and an encode throw of `null` makes the processor reject
with the TypeError from the catch clause. -/
theorem c9_witness :
    (processRequest badDecodeMethods sampleResolvers
        (mkMessage (.str "2.0") (.num 1) (.str "bad") (.obj [])) () {} =
      .error (.str "boom")
    ∧ rpcServer badDecodeMethods sampleResolvers {}
        (mkMessage (.str "2.0") (.num 1) (.str "bad") (.obj [])) () =
      .error (.str "boom"))
    ∧ processRequest badEncodeMethods sampleResolvers
        (mkMessage (.str "2.0") (.num 1) (.str "bad") (.obj [])) () {} =
      .ok (some (.failure
        { code := -32603, message := .str "Internal error", data := .undefined }
        (.num 1)))
    ∧ processRequest nullEncodeMethods sampleResolvers
        (mkMessage (.str "2.0") (.num 1) (.str "bad") (.obj [])) () {} =
      .error TYPE_ERROR :=
  ⟨(c9_adapter_exceptions badDecodeMethods sampleResolvers () {}
      [("jsonrpc", .str "2.0"), ("id", .num 1), ("method", .str "bad"),
       ("params", .obj [])]
      (.num 1) "bad"
      { request := { props := [], decode := fun _ => .error (.str "boom")
                   , encode := fun v => .ok v }
      , response := { props := [], decode := fun v => .ok (.ok v)
                    , encode := fun v => .ok v } }
      (.obj []) rfl rfl rfl (by decide) rfl rfl (by decide)).1
      (.str "boom") rfl,
   (c9_adapter_exceptions badEncodeMethods sampleResolvers () {}
      [("jsonrpc", .str "2.0"), ("id", .num 1), ("method", .str "bad"),
       ("params", .obj [])]
      (.num 1) "bad"
      { request := { props := [], decode := fun v => .ok (.ok v)
                   , encode := fun v => .ok v }
      , response := { props := [], decode := fun v => .ok (.ok v)
                    , encode := fun _ => .error (.str "boom") } }
      (.obj []) rfl rfl rfl (by decide) rfl rfl (by decide)).2.1
      (.obj []) (.obj []) (.str "boom") (by decide) (by decide) rfl rfl rfl
      (by decide) (by decide),
   (c9_adapter_exceptions nullEncodeMethods sampleResolvers () {}
      [("jsonrpc", .str "2.0"), ("id", .num 1), ("method", .str "bad"),
       ("params", .obj [])]
      (.num 1) "bad"
      { request := { props := [], decode := fun v => .ok (.ok v)
                   , encode := fun v => .ok v }
      , response := { props := [], decode := fun v => .ok (.ok v)
                    , encode := fun _ => .error .null } }
      (.obj []) rfl rfl rfl (by decide) rfl rfl (by decide)).2.2
      (.obj []) (.obj []) .null (by decide) (by decide) rfl rfl rfl (Or.inl rfl)⟩

/-- C8 counterexample: an error body with `code: true` yields a client
error whose code is 1, not 0 — `Number(true) || 0` is `1`, so a present
non-numeric code is coerced by `Number()`, not collapsed to 0. -/
theorem c8_counterexample :
    processBody echoCodec {} false
      (.obj [("error", .obj [("message", .str "oop"), ("code", .bool true)])]) =
      .ok (.rpcError { message := "oop", code := 1, data := .undefined }) := by decide

/-- C8 amended: the client response closure is a total case analysis on the
raw body: an `undefined` body resolves to no result for a notification and
is an Invalid Response error otherwise; a null, non-object or array body is
an Invalid Response error; an object with neither `result` nor `error` is
an Invalid Response error; an `error` body yields a client error carrying
the server's message, its code put through `Number(...) || 0` — a numeric
code is kept, an absent or null code becomes 0, a boolean code becomes 1 or
0 — and its data; a `result` body yields the decoded result; and a single
client call throws the client error instead of returning it. -/
theorem c8_client_response_cases (response : Codec) (options : ClientOptions) :
    (processBody response options true .undefined = .ok (.value .undefined))
    ∧ (processBody response options false .undefined =
        .ok (.rpcError { message := "Invalid response", code := -1, data := .undefined }))
    ∧ (∀ (body : JsValue) (async : Bool), body ≠ .undefined →
        (body = .null ∨ body.typeof ≠ "object" ∨ body.isArray = true) →
        processBody response options async body =
          .ok (.rpcError { message := "Invalid response", code := -1, data := .undefined }))
    ∧ (∀ (fields : List (String × JsValue)) (async : Bool),
        (JsValue.obj fields).get "result" = .undefined →
        (JsValue.obj fields).get "error" = .undefined →
        processBody response options async (.obj fields) =
          .ok (.rpcError { message := "Invalid response", code := -1, data := .undefined }))
    ∧ (∀ (fields : List (String × JsValue)) (async : Bool) (err : JsValue) (msg : String),
        (JsValue.obj fields).get "error" = err → err ≠ .undefined →
        err.getOpt "message" = .str msg → msg ≠ "" →
        ((∀ c : Rat, err.getOpt "code" = .num c →
            processBody response options async (.obj fields) =
              .ok (.rpcError { message := msg, code := c, data := err.getOpt "data" }))
          ∧ (err.getOpt "code" = .undefined →
            processBody response options async (.obj fields) =
              .ok (.rpcError { message := msg, code := 0, data := err.getOpt "data" }))
          ∧ (err.getOpt "code" = .null →
            processBody response options async (.obj fields) =
              .ok (.rpcError { message := msg, code := 0, data := err.getOpt "data" }))
          ∧ (∀ b : Bool, err.getOpt "code" = .bool b →
            processBody response options async (.obj fields) =
              .ok (.rpcError { message := msg
                             , code := if b then 1 else 0
                             , data := err.getOpt "data" }))))
    ∧ (∀ (fields : List (String × JsValue)) (async : Bool) (out : JsValue),
        (JsValue.obj fields).get "error" = .undefined →
        (JsValue.obj fields).get "result" ≠ .undefined →
        options.decode ≠ some false →
        response.decode ((JsValue.obj fields).get "result") = .ok (.ok out) →
        processBody response options async (.obj fields) = .ok (.value out))
    ∧ (∀ (methods : Methods) (send : JsValue → Except JsValue JsValue) (counter : Nat)
          (payload : ClientPayload) (item : PreparedItem) (c : Nat) (body : JsValue)
          (e : RpcError),
        prepare methods options counter payload = .ok (item, c) →
        send (requestEnvelope item) = .ok body →
        processBody item.response options item.async body = .ok (.rpcError e) →
        rpcClient methods options send counter payload = .threw e) := by
  refine ⟨rfl, rfl, fun body async hu h => ?_, fun fields async hr he => ?_,
    fun fields async err msg he hne hmsg hms =>
      ⟨fun c hc => ?_, fun hc => ?_, fun hc => ?_, fun b hc => ?_⟩,
    fun fields async out he hr hdec hout => ?_, fun methods send counter payload item c body e hp hs hb => ?_⟩
  · have hu' : (body == JsValue.undefined) = false := beq_eq_false_iff_ne.mpr hu
    rcases h with h | h | h
    · subst h
      simp [processBody]
    · have h' : (body.typeof != "object") = true := bne_iff_ne.mpr h
      simp [processBody, hu', h']
    · simp [processBody, hu', h]
  · simp [processBody, hr, he]
  · have hmt : (JsValue.str msg).truthy = true := by
      simp [JsValue.truthy, hms]
    have hne' : (err != JsValue.undefined) = true := bne_iff_ne.mpr hne
    have herr : (err == JsValue.undefined) = false := beq_eq_false_iff_ne.mpr hne
    simp [processBody, he, hne', herr, hmsg, hc, JsValue.orElse, hmt, jsToString,
      jsToNumber, obj_typeof, obj_isArray]
  · have hmt : (JsValue.str msg).truthy = true := by
      simp [JsValue.truthy, hms]
    have hne' : (err != JsValue.undefined) = true := bne_iff_ne.mpr hne
    have herr : (err == JsValue.undefined) = false := beq_eq_false_iff_ne.mpr hne
    simp [processBody, he, hne', herr, hmsg, hc, JsValue.orElse, hmt, jsToString,
      jsToNumber, obj_typeof, obj_isArray]
  · have hmt : (JsValue.str msg).truthy = true := by
      simp [JsValue.truthy, hms]
    have hne' : (err != JsValue.undefined) = true := bne_iff_ne.mpr hne
    have herr : (err == JsValue.undefined) = false := beq_eq_false_iff_ne.mpr hne
    simp [processBody, he, hne', herr, hmsg, hc, JsValue.orElse, hmt, jsToString,
      jsToNumber, obj_typeof, obj_isArray]
  · have hmt : (JsValue.str msg).truthy = true := by
      simp [JsValue.truthy, hms]
    have hne' : (err != JsValue.undefined) = true := bne_iff_ne.mpr hne
    have herr : (err == JsValue.undefined) = false := beq_eq_false_iff_ne.mpr hne
    cases b <;>
      simp [processBody, he, hne', herr, hmsg, hc, JsValue.orElse, hmt, jsToString,
        jsToNumber, obj_typeof, obj_isArray]
  · have hr' : ((JsValue.obj fields).get "result" == JsValue.undefined) = false :=
      beq_eq_false_iff_ne.mpr hr
    have hdec' : (options.decode == some false) = false := beq_eq_false_iff_ne.mpr hdec
    simp [processBody, he, hr', hdec', hout, obj_typeof, obj_isArray]
  · simp [rpcClient, hp, hs, hb]

/-- C8 witness: an error body with message "oop" and code 5 makes the
single-call client throw exactly that error; a `result` body resolves to
the decoded value; an `undefined` body resolves to no result for a
notification. -/
theorem c8_witness :
    rpcClient sampleMethods {}
      (fun _ => .ok (.obj [("error", .obj [("message", .str "oop"), ("code", .num 5)])]))
      0 { method := "echo", params := .obj [("arg", .str "x")], async := false } =
      .threw { message := "oop", code := 5, data := .undefined }
    ∧ processBody echoCodec {} false (.obj [("result", .str "ok")]) =
      .ok (.value (.str "ok"))
    ∧ processBody echoCodec {} true .undefined = .ok (.value .undefined) :=
  ⟨(c8_client_response_cases echoCodec {}).2.2.2.2.2.2 sampleMethods
      (fun _ => .ok (.obj [("error", .obj [("message", .str "oop"), ("code", .num 5)])]))
      0 { method := "echo", params := .obj [("arg", .str "x")], async := false }
      { method := "echo", params := .obj [("arg", .str "x")], id := .num 0
      , response := echoCodec, async := false }
      1 (.obj [("error", .obj [("message", .str "oop"), ("code", .num 5)])])
      { message := "oop", code := 5, data := .undefined }
      rfl rfl
      (((c8_client_response_cases echoCodec {}).2.2.2.2.1
          [("error", .obj [("message", .str "oop"), ("code", .num 5)])]
          false (.obj [("message", .str "oop"), ("code", .num 5)]) "oop"
          rfl (by decide) rfl (by decide)).1 5 rfl),
   (c8_client_response_cases echoCodec {}).2.2.2.2.2.1
      [("result", .str "ok")] false (.str "ok") rfl (by decide) (by decide) rfl,
   (c8_client_response_cases echoCodec {}).1⟩

/-- An `async` prepared item carries no id. -/
theorem prepare_async_id (methods : Methods) (options : ClientOptions) (counter : Nat)
    (p : ClientPayload) (item : PreparedItem) (c : Nat)
    (h : prepare methods options counter p = .ok (item, c)) (ha : item.async = true) :
    item.id = .undefined := by
  unfold prepare at h
  dsimp only at h
  cases he : (if options.encode == some false then Except.ok p.params
      else (getMethod methods p.method).request.encode p.params) with
  | error e =>
    rw [he] at h
    simp at h
  | ok params =>
    rw [he] at h
    dsimp only at h
    by_cases hpa : p.async
    · simp only [hpa, if_true, Except.ok.injEq, Prod.mk.injEq] at h
      rw [← h.1]
    · simp only [hpa, if_false, Except.ok.injEq, Prod.mk.injEq, Bool.false_eq_true] at h
      rw [← h.1] at ha
      simp at ha

/-- Every `async` item produced by batch preparation carries no id. -/
theorem prepareAll_async_id (methods : Methods) (options : ClientOptions) :
    ∀ (ps : List ClientPayload) (counter : Nat) (items : List PreparedItem) (c : Nat),
      prepareAll methods options ps counter = .ok (items, c) →
      ∀ item ∈ items, item.async = true → item.id = .undefined
  | [], counter, items, c, h => by
    simp only [prepareAll, Except.ok.injEq, Prod.mk.injEq] at h
    intro item hmem
    rw [← h.1] at hmem
    simp at hmem
  | p :: ps, counter, items, c, h => by
    intro item hmem hasync
    unfold prepareAll at h
    cases hp : prepare methods options counter p with
    | error e =>
      rw [hp] at h
      simp at h
    | ok pair =>
      obtain ⟨item₀, c₁⟩ := pair
      rw [hp] at h
      dsimp only at h
      cases hrest : prepareAll methods options ps c₁ with
      | error e =>
        rw [hrest] at h
        simp at h
      | ok pair₂ =>
        obtain ⟨items₂, c₂⟩ := pair₂
        rw [hrest] at h
        simp only [Except.ok.injEq, Prod.mk.injEq] at h
        rw [← h.1] at hmem
        rcases List.mem_cons.mp hmem with hmem0 | hmem0
        · subst hmem0
          exact prepare_async_id methods options counter p item c₁ hp hasync
        · exact prepareAll_async_id methods options ps c₁ items₂ c₂ hrest item hmem0 hasync

/-- C7 counterexample: three failures of the claim as stated.  A batch of
one notification against the reply `[{ result: "hi" }]` resolves the
notification slot to "hi" — the id-less entry is keyed under `undefined`
and found by the notification's own `undefined` id, so the reply IS
consulted.  With two reply entries sharing id 0, the later entry wins the
Map insertion, so permuting the reply flips the slot's result from "b" to
"a".  And a `null` reply entry makes the whole batch reject with a
TypeError from `data.id` before any slot resolves. -/
theorem c7_counterexample :
    rpcMany sampleMethods { decode := some false, encode := some false }
      (fun _ => .ok (.arr [.obj [("result", .str "hi")]])) 0
      [{ method := "echo", params := .obj [], async := true }] =
      .returned [.value (.str "hi")]
    ∧ rpcMany sampleMethods { decode := some false, encode := some false }
        (fun _ => .ok (.arr [.obj [("id", .num 0), ("result", .str "a")],
                             .obj [("id", .num 0), ("result", .str "b")]])) 0
        [{ method := "echo", params := .obj [], async := false }] =
      .returned [.value (.str "b")]
    ∧ rpcMany sampleMethods { decode := some false, encode := some false }
        (fun _ => .ok (.arr [.obj [("id", .num 0), ("result", .str "b")],
                             .obj [("id", .num 0), ("result", .str "a")]])) 0
        [{ method := "echo", params := .obj [], async := false }] =
      .returned [.value (.str "a")]
    ∧ rpcMany sampleMethods { decode := some false, encode := some false }
        (fun _ => .ok (.arr [.null])) 0
        [{ method := "echo", params := .obj [], async := false }] =
      .exception TYPE_ERROR := by decide

/-- C7 amended: when the reply tabulates successfully (it contains no
null/undefined entry, whose `data.id` read would throw), each batch slot is
resolved by looking up the slot's own request id in a table keyed by reply
id, in original submission order, and a slot whose processing yields an
error keeps it in place without aborting the other slots; permuting the
reply array leaves every slot's result unchanged provided the reply ids are
pairwise distinct; and a notification slot resolves to no result provided
no reply entry's id is absent. -/
theorem c7_batch_correlation (methods : Methods) (options : ClientOptions)
    (counter : Nat) (payloads : List ClientPayload) :
    (∀ (entries entries' : List JsValue) (pairs : List (JsValue × JsValue)),
        entries.Perm entries' →
        replyPairs entries = .ok pairs →
        (pairs.map Prod.fst).Nodup →
        rpcMany methods options (fun _ => .ok (.arr entries)) counter payloads =
          rpcMany methods options (fun _ => .ok (.arr entries')) counter payloads)
    ∧ (∀ (entries : List JsValue) (pairs : List (JsValue × JsValue))
          (items : List PreparedItem) (c : Nat) (slotOf : PreparedItem → ProcessOut),
        replyPairs entries = .ok pairs →
        prepareAll methods options payloads counter = .ok (items, c) →
        (∀ item ∈ items, processBody item.response options item.async
            (mapGet pairs item.id) = .ok (slotOf item)) →
        rpcMany methods options (fun _ => .ok (.arr entries)) counter payloads =
          .returned (items.map slotOf))
    ∧ (∀ (entries : List JsValue) (pairs : List (JsValue × JsValue))
          (items : List PreparedItem) (c : Nat) (item : PreparedItem),
        replyPairs entries = .ok pairs →
        (∀ p ∈ pairs, p.1 ≠ .undefined) →
        prepareAll methods options payloads counter = .ok (items, c) →
        item ∈ items → item.async = true →
        processBody item.response options item.async (mapGet pairs item.id) =
          .ok (.value .undefined)) := by
  refine ⟨fun entries entries' pairs hperm hpairs hnodup => ?_,
    fun entries pairs items c slotOf hpairs hprep hslots => ?_,
    fun entries pairs items c item hpairs hids hprep hmem hasync => ?_⟩
  · obtain ⟨hshape, hnn⟩ := replyPairs_ok_inv entries pairs hpairs
    have hnn' : ∀ d ∈ entries', d ≠ JsValue.null ∧ d ≠ JsValue.undefined :=
      fun d hd => hnn d (hperm.symm.subset hd)
    have hpairs' : replyPairs entries' = .ok (entries'.map fun d => (d.get "id", d)) :=
      replyPairs_ok entries' hnn'
    have hpp : pairs.Perm (entries'.map fun d => (d.get "id", d)) := by
      rw [hshape]
      exact hperm.map _
    have hfun : mapGet pairs = mapGet (entries'.map fun d => (d.get "id", d)) :=
      funext fun k => mapGet_perm _ _ hpp hnodup k
    cases hprep : prepareAll methods options payloads counter with
    | error e => simp [rpcMany, hprep]
    | ok pair =>
      obtain ⟨items, c⟩ := pair
      simp only [rpcMany, hprep, hpairs, hpairs']
      rw [hfun]
  · simp only [rpcMany, hprep, hpairs]
    rw [collectResults_of_pointwise
      (fun item => processBody item.response options item.async (mapGet pairs item.id))
      slotOf items hslots]
  · have hid : item.id = .undefined :=
      prepareAll_async_id methods options payloads counter items c hprep item hmem hasync
    have hnone : pairs.reverse.find? (fun p => p.1 == JsValue.undefined) = none := by
      rw [List.find?_eq_none]
      intro p hp
      exact fun hb => hids p (List.mem_reverse.mp hp) (eq_of_beq hb)
    rw [hasync, hid]
    unfold mapGet
    rw [hnone]
    rfl

/-- C7 witness: with distinct reply ids 0 and 1, swapping the two reply
entries leaves the batch outcome unchanged; the slots resolve in submission
order by own-id lookup (the normal slot to entry A's result, the
notification slot to no result); and the notification slot resolves to no
result because no tabulated reply id is absent. -/
theorem c7_witness :
    rpcMany sampleMethods c7opts (fun _ => .ok (.arr [c7entryB, c7entryA])) 0 c7payloads =
      rpcMany sampleMethods c7opts (fun _ => .ok (.arr [c7entryA, c7entryB])) 0 c7payloads
    ∧ rpcMany sampleMethods c7opts (fun _ => .ok (.arr [c7entryA, c7entryB])) 0 c7payloads =
      .returned [.value (.str "a"), .value .undefined]
    ∧ processBody c7itemA.response c7opts c7itemA.async
        (mapGet [(.num 0, c7entryA), (.num 1, c7entryB)] c7itemA.id) =
      .ok (.value .undefined) :=
  ⟨(c7_batch_correlation sampleMethods c7opts 0 c7payloads).1
      [c7entryB, c7entryA] [c7entryA, c7entryB]
      [(.num 1, c7entryB), (.num 0, c7entryA)]
      (List.Perm.swap c7entryA c7entryB []) rfl (by decide),
   (c7_batch_correlation sampleMethods c7opts 0 c7payloads).2.1
      [c7entryA, c7entryB] [(.num 0, c7entryA), (.num 1, c7entryB)]
      [c7itemN, c7itemA] 1
      (fun item => if item.async = true then .value .undefined else .value (.str "a"))
      rfl rfl
      (by
        intro item hmem
        rcases List.mem_cons.mp hmem with h0 | hmem
        · subst h0
          rfl
        · rcases List.mem_cons.mp hmem with h0 | hmem
          · subst h0
            rfl
          · simp at hmem),
   (c7_batch_correlation sampleMethods c7opts 0 c7payloads).2.2
      [c7entryA, c7entryB] [(.num 0, c7entryA), (.num 1, c7entryB)]
      [c7itemN, c7itemA] 1 c7itemA
      rfl (by decide) rfl
      (List.mem_cons_of_mem c7itemN (List.mem_cons_self c7itemA []))
      rfl⟩
